import Mathlib

/-!
Shallow embedding of `lepton_client.py`, the Lepton AI streaming-search client.

The embedding models the pieces of the Python module the verification needs:

* a JSON value type `JValue` and a model `json_loads` of Python's
  `json.loads` (recursive-descent, fuel-based so every definition is
  structurally recursive and kernel-reducible).  JSON numbers are kept as a
  mantissa/power-of-ten pair; the non-standard literals NaN and Infinity that
  CPython additionally accepts are not modelled, and a lone `\uXXXX` escape is
  mapped through `Char.ofNat`.
* Python exceptions relevant to the module as the inductive `PyErr`; a Python
  function that can raise becomes a Lean function into `Except PyErr`.
* `datetime.fromisoformat` (as of CPython < 3.11: `YYYY-MM-DD`, then
  optionally any one separator char and `HH[:MM[:SS[.fff or .ffffff]]]`,
  then optionally a `+HH:MM[:SS]` offset) as `datetime_fromisoformat`.
* string helpers: `str.replace`, `str.strip`, the regex substitution
  `re.sub(r'\[citation:\d+\]', '', text)`, and the `in` substring test.
* the `LeptonResponseParser` methods `parse`, `_parse_contexts`,
  `_parse_questions`, `_clean_response_text` and the `LeptonAIClient.search`
  validation; printing is modelled by accumulating the printed text in a
  second component, and the network by an `Except`-valued argument.
-/

namespace Lepton

/-- JSON values as produced by `json.loads`.  A number is `mant * 10 ^ exp10`;
objects keep their fields in source order (later duplicates shadow earlier
ones on lookup, as in a Python dict built by the JSON decoder). -/
inductive JValue where
  | null
  | bool (b : Bool)
  | num (mant : Int) (exp10 : Int)
  | str (s : String)
  | arr (elems : List JValue)
  | obj (fields : List (String × JValue))

/-- Dictionary lookup, `d.get(key)`: the value of the last binding of `key`. -/
def jget (fields : List (String × JValue)) (key : String) : Option JValue :=
  match fields with
  | [] => none
  | (k, v) :: rest =>
    match jget rest key with
    | some w => some w
    | none => if k = key then some v else none

/-- Dictionary lookup with default, `d.get(key, dflt)`. -/
def jgetD (fields : List (String × JValue)) (key : String) (dflt : JValue) : JValue :=
  (jget fields key).getD dflt

/-- Python truthiness (`bool(v)`) of a JSON value. -/
def pyTruthy : JValue → Bool
  | .null => false
  | .bool b => b
  | .num m _ => m != 0
  | .str s => s.toList.length != 0
  | .arr xs => xs.length != 0
  | .obj fs => fs.length != 0

/-- JSON whitespace accepted between tokens by the decoder. -/
def isJsonWs (c : Char) : Bool :=
  c == ' ' || c == '\t' || c == '\n' || c == '\r'

/-- Value of a hexadecimal digit. -/
def hexVal (c : Char) : Option Nat :=
  if c.isDigit then some (c.toNat - 48)
  else if 'a' ≤ c ∧ c ≤ 'f' then some (c.toNat - 87)
  else if 'A' ≤ c ∧ c ≤ 'F' then some (c.toNat - 55)
  else none

/-- Single-character string escapes of JSON. -/
def escChar : Char → Option Char
  | '"' => some '"'
  | '\\' => some '\\'
  | '/' => some '/'
  | 'b' => some (Char.ofNat 8)
  | 'f' => some (Char.ofNat 12)
  | 'n' => some '\n'
  | 'r' => some '\r'
  | 't' => some '\t'
  | _ => none

/-- Body of a JSON string after the opening quote: returns the decoded string
and the input following the closing quote.  Unescaped control characters are
rejected, as in the strict CPython decoder. -/
def pjStringAux : List Char → List Char → Option (String × List Char)
  | _, [] => none
  | acc, '"' :: rest => some (String.mk acc.reverse, rest)
  | acc, '\\' :: 'u' :: c1 :: c2 :: c3 :: c4 :: rest =>
    match hexVal c1, hexVal c2, hexVal c3, hexVal c4 with
    | some a, some b, some c, some d =>
      pjStringAux (Char.ofNat (((a * 16 + b) * 16 + c) * 16 + d) :: acc) rest
    | _, _, _, _ => none
  | acc, '\\' :: e :: rest =>
    match escChar e with
    | some c => pjStringAux (c :: acc) rest
    | none => none
  | acc, c :: rest =>
    if c.toNat < 32 then none else pjStringAux (c :: acc) rest

/-- Numeric value of a list of decimal digits. -/
def digitsToNat (ds : List Char) : Nat :=
  ds.foldl (fun a c => a * 10 + (c.toNat - 48)) 0

/-- Optional fraction part of a JSON number. -/
def pjNumFrac : List Char → Option (List Char × List Char)
  | '.' :: r =>
    match List.span Char.isDigit r with
    | ([], _) => none
    | (ds, r2) => some (ds, r2)
  | cs => some ([], cs)

/-- Optional exponent part of a JSON number. -/
def pjNumExp : List Char → Option (Int × List Char)
  | [] => some (0, [])
  | c :: r =>
    if c == 'e' || c == 'E' then
      match (match r with
             | '+' :: t => ((1 : Int), t)
             | '-' :: t => ((-1 : Int), t)
             | t => ((1 : Int), t)) with
      | (sgn, r1) =>
        match List.span Char.isDigit r1 with
        | ([], _) => none
        | (ds, r2) => some (sgn * (digitsToNat ds : Int), r2)
    else some (0, c :: r)

/-- JSON number: optional minus, integer part without leading zeros, optional
fraction and exponent. -/
def pjNumber (cs : List Char) : Option (JValue × List Char) :=
  match (match cs with
         | '-' :: r => (true, r)
         | r => (false, r)) with
  | (neg, cs1) =>
    match List.span Char.isDigit cs1 with
    | ([], _) => none
    | (ip, r1) =>
      if 1 < ip.length ∧ ip.head? = some '0' then none
      else
        match pjNumFrac r1 with
        | none => none
        | some (fp, r2) =>
          match pjNumExp r2 with
          | none => none
          | some (ex, r3) =>
            let mag : Int := (digitsToNat (ip ++ fp) : Int)
            some (.num (if neg then -mag else mag) (ex - (fp.length : Int)), r3)

/-- Parsing mode of the JSON recursive-descent machine: a single value, the
items of an array after `[`, or the members of an object after the open
brace. -/
inductive PJMode where
  | value
  | items
  | fields

/-- Result of one run of the JSON machine. -/
inductive PJRes where
  | val (v : JValue) (rest : List Char)
  | items (vs : List JValue) (rest : List Char)
  | fields (fs : List (String × JValue)) (rest : List Char)

/-- The JSON machine.  Structural recursion on fuel so that it reduces inside
the kernel; the fuel passed by `json_loads` always suffices. -/
def pjRun : Nat → PJMode → List Char → Option PJRes
  | 0, _, _ => none
  | f + 1, .value, cs =>
    match cs.dropWhile isJsonWs with
    | 'n' :: 'u' :: 'l' :: 'l' :: rest => some (.val .null rest)
    | 't' :: 'r' :: 'u' :: 'e' :: rest => some (.val (.bool true) rest)
    | 'f' :: 'a' :: 'l' :: 's' :: 'e' :: rest => some (.val (.bool false) rest)
    | '"' :: rest =>
      match pjStringAux [] rest with
      | some (s, r) => some (.val (.str s) r)
      | none => none
    | '[' :: rest =>
      match rest.dropWhile isJsonWs with
      | ']' :: r2 => some (.val (.arr []) r2)
      | _ =>
        match pjRun f .items rest with
        | some (.items vs r) => some (.val (.arr vs) r)
        | _ => none
    | '\x7b' :: rest =>
      match rest.dropWhile isJsonWs with
      | '\x7d' :: r2 => some (.val (.obj []) r2)
      | _ =>
        match pjRun f .fields rest with
        | some (.fields fs r) => some (.val (.obj fs) r)
        | _ => none
    | cs2 => match pjNumber cs2 with
      | some (v, r) => some (.val v r)
      | none => none
  | f + 1, .items, cs =>
    match pjRun f .value cs with
    | some (.val v r1) =>
      (match r1.dropWhile isJsonWs with
       | ',' :: r2 =>
         match pjRun f .items r2 with
         | some (.items vs r3) => some (.items (v :: vs) r3)
         | _ => none
       | ']' :: r2 => some (.items [v] r2)
       | _ => none)
    | _ => none
  | f + 1, .fields, cs =>
    match cs.dropWhile isJsonWs with
    | '"' :: rest =>
      (match pjStringAux [] rest with
       | some (k, r1) =>
         (match r1.dropWhile isJsonWs with
          | ':' :: r2 =>
            (match pjRun f .value r2 with
             | some (.val v r3) =>
               (match r3.dropWhile isJsonWs with
                | ',' :: r4 =>
                  (match pjRun f .fields r4 with
                   | some (.fields fs r5) => some (.fields ((k, v) :: fs) r5)
                   | _ => none)
                | '\x7d' :: r4 => some (.fields [(k, v)] r4)
                | _ => none)
             | _ => none)
          | _ => none)
       | none => none)
    | _ => none

/-- Model of `json.loads`: parse one JSON value and require that only
whitespace follows. -/
def json_loads (s : String) : Option JValue :=
  match pjRun (2 * s.toList.length + 2) .value s.toList with
  | some (.val v rest) => if rest.dropWhile isJsonWs = [] then some v else none
  | _ => none

/-- Whether the pattern is a prefix of the text. -/
def hasLead : List Char → List Char → Bool
  | [], _ => true
  | _ :: _, [] => false
  | p :: ps, c :: cs => p == c && hasLead ps cs

/-- Whether the needle occurs as a contiguous run of the haystack; the model
of Python's `needle in hay`. -/
def containsSub : List Char → List Char → Bool
  | [], needle => needle.isEmpty
  | c :: t, needle => hasLead needle (c :: t) || containsSub t needle

/-- String form of the `in` substring test. -/
def strContainsStr (hay needle : String) : Bool :=
  containsSub hay.toList needle.toList

/-- Model of `str.replace(pat, rep)`: replace every non-overlapping
occurrence, scanning left to right.  Fuel is consumed one unit per emitted
position, so `length + 1` always suffices for a non-empty pattern. -/
def pyReplaceAux : Nat → List Char → List Char → List Char → List Char
  | 0, s, _, _ => s
  | _ + 1, [], _, _ => []
  | f + 1, c :: rest, pat, rep =>
    if !pat.isEmpty && hasLead pat (c :: rest) then
      rep ++ pyReplaceAux f ((c :: rest).drop pat.length) pat rep
    else c :: pyReplaceAux f rest pat rep

/-- Model of `str.replace` on strings. -/
def pyReplace (s pat rep : String) : String :=
  String.mk (pyReplaceAux (s.toList.length + 1) s.toList pat.toList rep.toList)

/-- After the literal `[citation:` has been read: require one or more digits
and a closing bracket, returning the remainder. -/
def citationAfter (cs : List Char) : Option (List Char) :=
  match List.span Char.isDigit cs with
  | ([], _) => none
  | (_, ']' :: rest) => some rest
  | (_, _) => none

/-- Model of `re.sub(r'\[citation:\d+\]', '', text)`: leftmost non-overlapping
matches are removed. -/
def reSubCitationAux : Nat → List Char → List Char
  | 0, s => s
  | _ + 1, [] => []
  | f + 1, '[' :: 'c' :: 'i' :: 't' :: 'a' :: 't' :: 'i' :: 'o' :: 'n' :: ':' :: tail =>
    (match citationAfter tail with
     | some rest2 => reSubCitationAux f rest2
     | none =>
       '[' :: reSubCitationAux f ('c' :: 'i' :: 't' :: 'a' :: 't' :: 'i' :: 'o' :: 'n' :: ':' :: tail))
  | f + 1, c :: rest => c :: reSubCitationAux f rest

/-- Model of `LeptonResponseParser._clean_response_text`: strip citation
markers, collapse `space + period` pairs, append a newline. -/
def clean_response_text (text : String) : String :=
  let t1 := String.mk (reSubCitationAux (text.toList.length + 1) text.toList)
  let t2 := pyReplace t1 " ." "."
  t2 ++ "\n"

/-- Python `str.strip()` whitespace (ASCII subset). -/
def isPyWs (c : Char) : Bool :=
  c == ' ' || c == '\t' || c == '\n' || c == '\r' || c == '\x0b' || c == '\x0c'

/-- Model of `str.strip()`. -/
def pyStrip (s : String) : String :=
  String.mk (((s.toList.dropWhile isPyWs).reverse.dropWhile isPyWs).reverse)

/-- Result of `datetime.fromisoformat`: a naive or offset-aware datetime.
The offset is kept in seconds. -/
structure PyDateTime where
  year : Nat
  month : Nat
  day : Nat
  hour : Nat
  minute : Nat
  second : Nat
  microsecond : Nat
  tzOffsetSeconds : Option Int
deriving DecidableEq

/-- Gregorian leap-year rule used by `datetime`. -/
def isLeapYear (y : Nat) : Bool :=
  y % 4 == 0 && (y % 100 != 0 || y % 400 == 0)

/-- Number of days of a month, as validated by the `datetime` constructor. -/
def daysInMonth (y m : Nat) : Nat :=
  if m = 2 then (if isLeapYear y then 29 else 28)
  else if m = 4 ∨ m = 6 ∨ m = 9 ∨ m = 11 then 30
  else 31

/-- Read exactly two decimal digits. -/
def read2 : List Char → Option (Nat × List Char)
  | c1 :: c2 :: rest =>
    if c1.isDigit && c2.isDigit then
      some ((c1.toNat - 48) * 10 + (c2.toNat - 48), rest)
    else none
  | _ => none

/-- Fractional-seconds part of an ISO time: absent, or a dot followed by
exactly three or six digits, yielding microseconds. -/
def parseIsoFrac : List Char → Option (Nat × List Char)
  | '.' :: rest =>
    (match List.span Char.isDigit rest with
     | (ds, r) =>
       if ds.length = 3 then some (digitsToNat ds * 1000, r)
       else if ds.length = 6 then some (digitsToNat ds, r)
       else none)
  | cs => some (0, cs)

/-- UTC-offset tail `HH:MM` or `HH:MM:SS` after the sign, in seconds. -/
def parseIsoOffset (sgn : Int) (cs : List Char) : Option (Int × List Char) :=
  match read2 cs with
  | none => none
  | some (oh, r1) =>
    match r1 with
    | ':' :: r2 =>
      (match read2 r2 with
       | none => none
       | some (om, r3) =>
         match r3 with
         | ':' :: r4 =>
           (match read2 r4 with
            | none => none
            | some (os, r5) =>
              if oh < 24 ∧ om < 60 ∧ os < 60 then
                some (sgn * ((oh * 3600 + om * 60 + os : Nat) : Int), r5)
              else none)
         | _ =>
           if oh < 24 ∧ om < 60 then
             some (sgn * ((oh * 3600 + om * 60 : Nat) : Int), r3)
           else none)
    | _ => none

/-- Hour, minute, second and microsecond of an ISO time string. -/
def parseIsoHMS (cs : List Char) : Option (Nat × Nat × Nat × Nat × List Char) :=
  match read2 cs with
  | none => none
  | some (hh, r1) =>
    match r1 with
    | ':' :: r2 =>
      (match read2 r2 with
       | none => none
       | some (mm, r3) =>
         match r3 with
         | ':' :: r4 =>
           (match read2 r4 with
            | none => none
            | some (ss, r5) =>
              match parseIsoFrac r5 with
              | none => none
              | some (us, r6) => some (hh, mm, ss, us, r6))
         | _ => some (hh, mm, 0, 0, r3))
    | _ => some (hh, 0, 0, 0, r1)

/-- Time-of-day with optional offset; the whole remainder must be consumed. -/
def parseIsoTime (cs : List Char) : Option (Nat × Nat × Nat × Nat × Option Int) :=
  match parseIsoHMS cs with
  | none => none
  | some (hh, mm, ss, us, r) =>
    if hh < 24 ∧ mm < 60 ∧ ss < 60 then
      match r with
      | [] => some (hh, mm, ss, us, none)
      | '+' :: r2 =>
        (match parseIsoOffset 1 r2 with
         | some (off, []) => some (hh, mm, ss, us, some off)
         | _ => none)
      | '-' :: r2 =>
        (match parseIsoOffset (-1) r2 with
         | some (off, []) => some (hh, mm, ss, us, some off)
         | _ => none)
      | _ => none
    else none

/-- Model of `datetime.fromisoformat` (CPython before 3.11): a `YYYY-MM-DD`
date, optionally followed by a single separator character of any kind and a
time with optional UTC offset.  Returns `none` where CPython raises
`ValueError`. -/
def datetime_fromisoformat (s : String) : Option PyDateTime :=
  match s.toList with
  | y1 :: y2 :: y3 :: y4 :: '-' :: m1 :: m2 :: '-' :: d1 :: d2 :: rest =>
    if y1.isDigit && y2.isDigit && y3.isDigit && y4.isDigit &&
       m1.isDigit && m2.isDigit && d1.isDigit && d2.isDigit then
      let y := digitsToNat [y1, y2, y3, y4]
      let mo := digitsToNat [m1, m2]
      let d := digitsToNat [d1, d2]
      if 1 ≤ y ∧ 1 ≤ mo ∧ mo ≤ 12 ∧ 1 ≤ d ∧ d ≤ daysInMonth y mo then
        match rest with
        | [] => some ⟨y, mo, d, 0, 0, 0, 0, none⟩
        | _ :: timecs =>
          match parseIsoTime timecs with
          | some (hh, mm, ss, us, off) => some ⟨y, mo, d, hh, mm, ss, us, off⟩
          | none => none
      else none
    else none
  | _ => none

/-- The Python exceptions the client's code paths can raise or catch. -/
inductive PyErr where
  | jsonDecodeError
  | valueError
  | assertionError
  | attributeError
  | typeError
deriving DecidableEq

/-- The immutable `Context` dataclass.  Only `name`, `id`, `url` and
`is_family_friendly` are type-checked by `__post_init__`, so `thumbnail_url`,
`display_url` and `snippet` keep whatever JSON value the payload carried. -/
structure Context where
  name : String
  id : String
  url : String
  thumbnail_url : Option JValue
  date_published : Option PyDateTime
  is_family_friendly : Bool
  display_url : JValue
  snippet : JValue

/-- Construction of one `Context` from one element of the contexts array,
mirroring the loop body of `_parse_contexts`: the `datePublished` conditional
expression is evaluated first (a failed ISO parse raises `ValueError`, a
truthy non-string raises `AttributeError` at `.replace`), then the fields are
extracted with defaults and the `__post_init__` assertions run.  Calling
`.get` on a non-dict element raises `AttributeError`. -/
def buildContext (ctx : JValue) : Except PyErr Context :=
  match ctx with
  | .obj fields =>
    (match (match jget fields "datePublished" with
            | some dv =>
              if pyTruthy dv then
                match dv with
                | .str s =>
                  (match datetime_fromisoformat (pyReplace s "Z" "+00:00") with
                   | some dt => Except.ok (some dt)
                   | none => Except.error PyErr.valueError)
                | _ => Except.error PyErr.attributeError
              else Except.ok none
            | none => Except.ok (none : Option PyDateTime)) with
     | .error e => .error e
     | .ok dp =>
       match jgetD fields "name" (.str ""), jgetD fields "id" (.str ""),
             jgetD fields "url" (.str "") with
       | .str n, .str i, .str u =>
         .ok ⟨n, i, u, jget fields "thumbnailUrl", dp,
              pyTruthy (jgetD fields "isFamilyFriendly" (.bool true)),
              jgetD fields "displayUrl" (.str ""), jgetD fields "snippet" (.str "")⟩
       | _, _, _ => .error .assertionError)
  | _ => .error .attributeError

/-- The `for ctx in ...` loop of `_parse_contexts`: build each element,
catching only `ValueError` and `AssertionError` (the element is skipped with
a warning); any other exception propagates and aborts the whole call. -/
def parse_contexts_list (elems : List JValue) : Except PyErr (List Context) :=
  match elems with
  | [] => .ok []
  | e :: rest =>
    match buildContext e with
    | .ok c => (parse_contexts_list rest).map (fun cs => c :: cs)
    | .error .valueError => parse_contexts_list rest
    | .error .assertionError => parse_contexts_list rest
    | .error err => .error err

/-- Python iteration over a JSON value: arrays yield elements, strings yield
one-character strings, dicts yield their keys, everything else raises
`TypeError`. -/
def pyIter (v : JValue) : Except PyErr (List JValue) :=
  match v with
  | .arr xs => .ok xs
  | .str s => .ok (s.toList.map (fun c => JValue.str (String.mk [c])))
  | .obj fs => .ok (fs.map (fun kv => JValue.str kv.1))
  | _ => .error .typeError

/-- Model of `LeptonResponseParser._parse_contexts`. -/
def parse_contexts (line : String) : Except PyErr (List Context) :=
  match json_loads line with
  | none => .error .jsonDecodeError
  | some data =>
    match data with
    | .obj fields =>
      (match pyIter (jgetD fields "contexts" (.arr [])) with
       | .error e => .error e
       | .ok elems => parse_contexts_list elems)
    | _ => .error .attributeError

/-- Model of `LeptonResponseParser._parse_questions`: the `question` values
of the dict elements that carry that key, in source order. -/
def parse_questions (line : String) : Except PyErr (List JValue) :=
  match json_loads line with
  | none => .error .jsonDecodeError
  | some data =>
    match pyIter data with
    | .error e => .error e
    | .ok elems =>
      .ok (elems.filterMap (fun q =>
        match q with
        | .obj fs => jget fs "question"
        | _ => none))

/-- The dictionary accumulated by `LeptonResponseParser.parse`. -/
structure ParseResult where
  response : String
  contexts : List Context
  related_questions : List JValue

/-- One iteration of the line loop of `parse`.  The state carries the result
dictionary and the text printed so far (the `prints` side channel).  A line
that is empty or a sentinel is skipped; a line that parses as JSON is routed
by the substring markers; a line that fails JSON parsing is cleaned and
appended to the response (and printed when `prints` is set). -/
def parseStep (prints : Bool) (st : ParseResult × String) (line : String) :
    Except PyErr (ParseResult × String) :=
  if line = "" ∨ line = "__LLM_RESPONSE__" ∨ line = "__RELATED_QUESTIONS__" then
    .ok st
  else
    match json_loads line with
    | some _ =>
      if strContainsStr line "contexts" then
        match parse_contexts line with
        | .ok cs => .ok ({ st.1 with contexts := cs }, st.2)
        | .error e => .error e
      else if strContainsStr line "\"question\"" then
        match parse_questions line with
        | .ok qs => .ok ({ st.1 with related_questions := qs }, st.2)
        | .error e => .error e
      else .ok st
    | none =>
      let cleaned := clean_response_text line
      .ok ({ st.1 with response := st.1.response ++ cleaned },
           if prints then st.2 ++ cleaned else st.2)

/-- The line loop of `parse`: an uncaught exception aborts the loop (the
source re-raises it as `ResponseParsingError`). -/
def parseLines (prints : Bool) :
    ParseResult × String → List String → Except PyErr (ParseResult × String)
  | st, [] => .ok st
  | st, l :: ls =>
    match parseStep prints st l with
    | .ok st2 => parseLines prints st2 ls
    | .error e => .error e

/-- Model of `LeptonResponseParser.parse` on the stream's decoded lines.
The second component of a successful result is the text printed in real time;
an `error` value corresponds to `ResponseParsingError` being raised. -/
def parse (lines : List String) (prints : Bool) :
    Except PyErr (ParseResult × String) :=
  parseLines prints (⟨"", [], []⟩, "") lines

/-- The `query` argument of `search`: a Python string or a non-string value. -/
inductive PyQuery where
  | str (s : String)
  | nonStr

/-- The exceptions `search` surfaces. -/
inductive SearchError where
  | validationError
  | apiConnectionError
  | responseParsingError (e : PyErr)

/-- The validation condition of `search`:
`not isinstance(query, str) or not query.strip()`. -/
def queryInvalid : PyQuery → Bool
  | .nonStr => true
  | .str s => (pyStrip s).isEmpty

/-- Model of `LeptonAIClient.search`.  The network is abstracted as `fetch`,
the outcome of `make_request`: either a connection failure or the stream's
lines.  Validation runs before `fetch` is consulted. -/
def search (fetch : Except Unit (List String)) (query : PyQuery)
    (prints : Bool) : Except SearchError ParseResult :=
  match query with
  | .nonStr => .error .validationError
  | .str s =>
    if (pyStrip s).isEmpty then .error .validationError
    else
      match fetch with
      | .error _ => .error .apiConnectionError
      | .ok lines =>
        match parse lines prints with
        | .ok st => .ok st.1
        | .error e => .error (.responseParsingError e)

/-- Whether `parse` routes a line to `_parse_contexts`: non-empty,
non-sentinel, valid JSON, and carrying the `contexts` substring marker. -/
def isContextsLine (l : String) : Bool :=
  !(l == "" || l == "__LLM_RESPONSE__" || l == "__RELATED_QUESTIONS__") &&
  (json_loads l).isSome && strContainsStr l "contexts"

/-- Whether `parse` routes a line to `_parse_questions`: non-empty,
non-sentinel, valid JSON, no `contexts` marker, and carrying the
quoted-question marker. -/
def isQuestionsLine (l : String) : Bool :=
  !(l == "" || l == "__LLM_RESPONSE__" || l == "__RELATED_QUESTIONS__") &&
  (json_loads l).isSome && !strContainsStr l "contexts" &&
  strContainsStr l "\"question\""

/-- Whether a questions-array element is a dict carrying a `question` key. -/
def hasQuestionKey (q : JValue) : Bool :=
  match q with
  | .obj fs => (jget fs "question").isSome
  | _ => false

/-- The `question` value of a questions-array element (`null` when absent,
which `hasQuestionKey` rules out). -/
def questionValue (q : JValue) : JValue :=
  match q with
  | .obj fs => jgetD fs "question" .null
  | _ => .null

theorem parseLines_append (p : Bool) (st : ParseResult × String)
    (xs ys : List String) :
    parseLines p st (xs ++ ys) =
      match parseLines p st xs with
      | .ok st2 => parseLines p st2 ys
      | .error e => .error e := by
  induction xs generalizing st with
  | nil => simp [parseLines]
  | cons l ls ih =>
    simp only [List.cons_append, parseLines]
    cases parseStep p st l with
    | ok st2 => exact ih st2
    | error e => rfl

theorem parseStep_of_sentinel (p : Bool) (st : ParseResult × String)
    (l : String) (h : l = "" ∨ l = "__LLM_RESPONSE__" ∨ l = "__RELATED_QUESTIONS__") :
    parseStep p st l = .ok st := by
  simp [parseStep, h]

theorem parseStep_contexts_set (p : Bool) (st : ParseResult × String)
    (l : String) (cs : List Context) (hl : isContextsLine l = true)
    (hc : parse_contexts l = .ok cs) :
    parseStep p st l = .ok ({ st.1 with contexts := cs }, st.2) := by
  have h1 : ¬(l = "" ∨ l = "__LLM_RESPONSE__" ∨ l = "__RELATED_QUESTIONS__") := by
    intro h
    simp [isContextsLine] at hl
    rcases h with h | h | h <;> simp [h] at hl
  obtain ⟨v, hv⟩ : ∃ v, json_loads l = some v := by
    simp [isContextsLine, Option.isSome_iff_exists] at hl
    exact hl.1.2
  have hm : strContainsStr l "contexts" = true := by
    simp [isContextsLine] at hl
    exact hl.2
  simp [parseStep, h1, hv, hm, hc]

theorem parseStep_questions_set (p : Bool) (st : ParseResult × String)
    (l : String) (qs : List JValue) (hl : isQuestionsLine l = true)
    (hq : parse_questions l = .ok qs) :
    parseStep p st l = .ok ({ st.1 with related_questions := qs }, st.2) := by
  have h1 : ¬(l = "" ∨ l = "__LLM_RESPONSE__" ∨ l = "__RELATED_QUESTIONS__") := by
    intro h
    simp [isQuestionsLine] at hl
    rcases h with h | h | h <;> simp [h] at hl
  obtain ⟨v, hv⟩ : ∃ v, json_loads l = some v := by
    simp [isQuestionsLine, Option.isSome_iff_exists] at hl
    exact hl.1.1.2
  have hnc : strContainsStr l "contexts" = false := by
    simp [isQuestionsLine] at hl
    exact hl.1.2
  have hm : strContainsStr l "\"question\"" = true := by
    simp [isQuestionsLine] at hl
    exact hl.2
  simp [parseStep, h1, hv, hnc, hm, hq]

theorem parseStep_contexts_of_not (p : Bool) (st st2 : ParseResult × String)
    (l : String) (hn : isContextsLine l = false)
    (h : parseStep p st l = .ok st2) : st2.1.contexts = st.1.contexts := by
  by_cases hs : (l = "" ∨ l = "__LLM_RESPONSE__" ∨ l = "__RELATED_QUESTIONS__")
  · rw [parseStep_of_sentinel p st l hs] at h
    cases h
    rfl
  · have hs1 : l ≠ "" ∧ l ≠ "__LLM_RESPONSE__" ∧ l ≠ "__RELATED_QUESTIONS__" := by
      constructor
      · intro he; exact hs (Or.inl he)
      constructor
      · intro he; exact hs (Or.inr (Or.inl he))
      · intro he; exact hs (Or.inr (Or.inr he))
    cases hv : json_loads l with
    | none =>
      simp only [parseStep, if_neg hs, hv] at h
      cases h
      rfl
    | some v =>
      have hm : strContainsStr l "contexts" = false := by
        simp [isContextsLine, hs1.1, hs1.2.1, hs1.2.2, hv] at hn
        exact hn
      simp only [parseStep, if_neg hs, hv, hm, Bool.false_eq_true, if_false] at h
      cases hq : strContainsStr l "\"question\"" with
      | false =>
        simp only [hq, Bool.false_eq_true, if_false] at h
        cases h
        rfl
      | true =>
        simp only [hq, if_true] at h
        cases hpq : parse_questions l with
        | ok qs =>
          rw [hpq] at h
          cases h
          rfl
        | error e =>
          rw [hpq] at h
          cases h

theorem parseStep_questions_of_not (p : Bool) (st st2 : ParseResult × String)
    (l : String) (hn : isQuestionsLine l = false)
    (h : parseStep p st l = .ok st2) : st2.1.related_questions = st.1.related_questions := by
  by_cases hs : (l = "" ∨ l = "__LLM_RESPONSE__" ∨ l = "__RELATED_QUESTIONS__")
  · rw [parseStep_of_sentinel p st l hs] at h
    cases h
    rfl
  · have hs1 : l ≠ "" ∧ l ≠ "__LLM_RESPONSE__" ∧ l ≠ "__RELATED_QUESTIONS__" := by
      constructor
      · intro he; exact hs (Or.inl he)
      constructor
      · intro he; exact hs (Or.inr (Or.inl he))
      · intro he; exact hs (Or.inr (Or.inr he))
    cases hv : json_loads l with
    | none =>
      simp only [parseStep, if_neg hs, hv] at h
      cases h
      rfl
    | some v =>
      cases hm : strContainsStr l "contexts" with
      | true =>
        simp only [parseStep, if_neg hs, hv, hm, if_true] at h
        cases hpc : parse_contexts l with
        | ok cs =>
          rw [hpc] at h
          cases h
          rfl
        | error e =>
          rw [hpc] at h
          cases h
      | false =>
        have hq : strContainsStr l "\"question\"" = false := by
          simp [isQuestionsLine, hs1.1, hs1.2.1, hs1.2.2, hv, hm] at hn
          exact hn
        simp only [parseStep, if_neg hs, hv, hm, hq, Bool.false_eq_true, if_false] at h
        cases h
        rfl

theorem parseLines_contexts_of_none (p : Bool) (ls : List String) :
    ∀ (st res : ParseResult × String), (∀ l ∈ ls, isContextsLine l = false) →
    parseLines p st ls = .ok res → res.1.contexts = st.1.contexts := by
  induction ls with
  | nil =>
    intro st res _ h
    cases h
    rfl
  | cons l ls ih =>
    intro st res hall h
    simp only [parseLines] at h
    cases hstep : parseStep p st l with
    | ok st2 =>
      rw [hstep] at h
      have h1 := ih st2 res (fun x hx => hall x (List.mem_cons_of_mem l hx)) h
      have h2 := parseStep_contexts_of_not p st st2 l (hall l (List.mem_cons_self l ls)) hstep
      rw [h1, h2]
    | error e =>
      rw [hstep] at h
      cases h

theorem parseLines_questions_of_none (p : Bool) (ls : List String) :
    ∀ (st res : ParseResult × String), (∀ l ∈ ls, isQuestionsLine l = false) →
    parseLines p st ls = .ok res → res.1.related_questions = st.1.related_questions := by
  induction ls with
  | nil =>
    intro st res _ h
    cases h
    rfl
  | cons l ls ih =>
    intro st res hall h
    simp only [parseLines] at h
    cases hstep : parseStep p st l with
    | ok st2 =>
      rw [hstep] at h
      have h1 := ih st2 res (fun x hx => hall x (List.mem_cons_of_mem l hx)) h
      have h2 := parseStep_questions_of_not p st st2 l (hall l (List.mem_cons_self l ls)) hstep
      rw [h1, h2]
    | error e =>
      rw [hstep] at h
      cases h

/-- Claim C1: the claim says a malformed contexts element — for example one
that is not a JSON object — is skipped while the rest of the batch is kept
and the decode completes.  The code instead calls `.get` on the element, and
for a non-dict element the resulting `AttributeError` is caught neither by
the per-element `except (ValueError, AssertionError)` nor by the inner
`except json.JSONDecodeError`, so the whole decode aborts: on the stream
consisting of the single line `{"contexts": [42, {"name": "ok"}]}` the
decode returns the `AttributeError`-driven failure (surfaced as
`ResponseParsingError`) and even the valid element is lost. -/
theorem contexts_nonobject_element_aborts_decode :
    parse ["\x7b\"contexts\": [42, \x7b\"name\": \"ok\"\x7d]\x7d"] false =
      .error .attributeError := rfl

/-- Claim C5 (counterexample): on the spec's own example input the cleaning
function returns `"The answer is correct .\n"`, not the claimed
`"The answer is correct.\n"`: removing `[citation:3]` leaves two spaces
before the period and the single-pass `' .' -> '.'` replacement consumes
only one of them. -/
theorem clean_citation_example_cex :
    clean_response_text "The answer is correct [citation:3] ." =
      "The answer is correct .\n" ∧
    "The answer is correct .\n" ≠ "The answer is correct.\n" :=
  ⟨rfl, by decide⟩

/-- Claim C5 (amended): applying the text-cleaning function to
`"The answer is correct [citation:3] ."` yields exactly
`"The answer is correct .\n"` — the citation marker is removed including
brackets, one space-period pair is collapsed (one space survives), and a
single trailing line break is appended. -/
theorem clean_citation_example_amended :
    clean_response_text "The answer is correct [citation:3] ." =
      "The answer is correct .\n" := rfl

/-- Claim C6: a context element that is a JSON object with none of the
optional fields yields a record with `is_family_friendly = true`, absent
`thumbnail_url` and `date_published`, and empty-string `name`, `id`, `url`,
`display_url` and `snippet`. -/
theorem context_missing_fields_defaults (fields : List (String × JValue))
    (hname : jget fields "name" = none) (hid : jget fields "id" = none)
    (hurl : jget fields "url" = none) (hth : jget fields "thumbnailUrl" = none)
    (hdp : jget fields "datePublished" = none)
    (hff : jget fields "isFamilyFriendly" = none)
    (hdu : jget fields "displayUrl" = none) (hsn : jget fields "snippet" = none) :
    buildContext (.obj fields) =
      .ok ⟨"", "", "", none, none, true, .str "", .str ""⟩ := by
  simp [buildContext, jgetD, hname, hid, hurl, hth, hdp, hff, hdu, hsn, pyTruthy]

/-- Claim C6 witness: the empty JSON object gets all the defaults. -/
theorem context_missing_fields_defaults_witness :
    buildContext (.obj []) =
      .ok ⟨"", "", "", none, none, true, .str "", .str ""⟩ :=
  context_missing_fields_defaults [] rfl rfl rfl rfl rfl rfl rfl rfl

theorem buildContext_of_bad_date (fields : List (String × JValue)) (s : String)
    (hget : jget fields "datePublished" = some (.str s))
    (hs : pyTruthy (.str s) = true)
    (hp : datetime_fromisoformat (pyReplace s "Z" "+00:00") = none) :
    buildContext (.obj fields) = .error .valueError := by
  simp [buildContext, hget, hs, hp]

/-- Claim C4 (counterexample): the contexts payload
`{"contexts": [{"datePublished": "bad"}]}` has one element whose present
`datePublished` fails ISO-8601 parsing.  The claim says the element's record
is still constructed with an absent date; the code instead lets the
`ValueError` reach the per-element handler, which drops the whole element,
so the decoded list is empty rather than a one-record list. -/
theorem date_parse_failure_cex :
    parse_contexts "\x7b\"contexts\": [\x7b\"datePublished\": \"bad\"\x7d]\x7d" =
      .ok [] := rfl

/-- Claim C4 (amended): when a context element's `datePublished` is a present
(truthy) string that fails ISO-8601 parsing after the `Z -> +00:00`
rewrite, that single element is dropped and the remaining elements decode
exactly as if it were absent — the payload as a whole never fails on this;
and a trailing `Z` is treated as UTC offset `+00:00` (second conjunct: a
`Z`-suffixed timestamp builds a record whose date carries offset zero). -/
theorem date_parse_failure_skips_element :
    (∀ (xs ys : List JValue) (fields : List (String × JValue)) (s : String),
       jget fields "datePublished" = some (.str s) →
       pyTruthy (.str s) = true →
       datetime_fromisoformat (pyReplace s "Z" "+00:00") = none →
       parse_contexts_list (xs ++ JValue.obj fields :: ys) =
         parse_contexts_list (xs ++ ys)) ∧
    buildContext (.obj [("datePublished", .str "2024-01-01T00:00:00Z")]) =
      .ok ⟨"", "", "", none, some ⟨2024, 1, 1, 0, 0, 0, 0, some 0⟩, true,
           .str "", .str ""⟩ := by
  constructor
  · intro xs ys fields s hget hs hp
    induction xs with
    | nil =>
      simp only [List.nil_append, parse_contexts_list,
                 buildContext_of_bad_date fields s hget hs hp]
    | cons x xs ih =>
      simp only [List.cons_append, parse_contexts_list]
      cases hbc : buildContext x with
      | ok c => simp [ih]
      | error e => cases e <;> simp [ih]
  · rfl

/-- Claim C4 witness: a payload of a well-formed element followed by a
bad-date element decodes as the one-element payload alone. -/
theorem date_parse_failure_skips_element_witness :
    parse_contexts_list
        [JValue.obj [], JValue.obj [("datePublished", JValue.str "bad")]] =
      parse_contexts_list [JValue.obj []] :=
  date_parse_failure_skips_element.1 [JValue.obj []] []
    [("datePublished", JValue.str "bad")] "bad" rfl rfl rfl

/-- Claim C2 (counterexample): the line `123` is non-empty, non-sentinel,
valid JSON, and contains neither structural marker.  The claim says such a
line is cleaned and appended to the answer; but the code only appends text
from the `except json.JSONDecodeError` branch, so the line is silently
discarded: decoding the one-line stream leaves the response empty, although
cleaning the line would have produced `"123\n"`. -/
theorem valid_json_unmarked_line_dropped_cex :
    parse ["123"] false = .ok (⟨"", [], []⟩, "") ∧
    clean_response_text "123" = "123\n" :=
  ⟨rfl, rfl⟩

/-- Claim C2 (amended): a non-empty, non-sentinel line that fails JSON
parsing is cleaned and appended to the accumulated answer text (and echoed
when printing is on); a non-empty, non-sentinel line that parses as JSON
but contains neither structural marker is silently discarded, leaving the
decode state unchanged. -/
theorem text_fragment_lines_amended (p : Bool) (st : ParseResult × String)
    (line : String) (h1 : line ≠ "") (h2 : line ≠ "__LLM_RESPONSE__")
    (h3 : line ≠ "__RELATED_QUESTIONS__") :
    (json_loads line = none →
      parseStep p st line =
        .ok ({ st.1 with response := st.1.response ++ clean_response_text line },
             if p then st.2 ++ clean_response_text line else st.2)) ∧
    (∀ v, json_loads line = some v →
      strContainsStr line "contexts" = false →
      strContainsStr line "\"question\"" = false →
      parseStep p st line = .ok st) := by
  constructor
  · intro hj
    simp [parseStep, h1, h2, h3, hj]
  · intro v hj hc hq
    simp [parseStep, h1, h2, h3, hj, hc, hq]

/-- Claim C2 witness: the non-JSON line `hello` is appended as `"hello\n"`. -/
theorem text_fragment_lines_amended_witness :
    parseStep false (⟨"", [], []⟩, "") "hello" = .ok (⟨"hello\n", [], []⟩, "") :=
  (text_fragment_lines_amended false (⟨"", [], []⟩, "") "hello"
    (by decide) (by decide) (by decide)).1 rfl

/-- Claim C3 (counterexample): on the stream whose single line is the
invalid-JSON contexts-marker line `{"contexts": [`, the decode does not
abort and the contexts sequence is empty — but the answer text is NOT
unaffected: the line falls into the text branch and is appended (cleaned,
with a newline) to the response, so the payload is not simply treated as
empty for the contexts section. -/
theorem invalid_contexts_line_affects_answer_cex :
    parse ["\x7b\"contexts\": ["] false =
      .ok (⟨"\x7b\"contexts\": [\n", [], []⟩, "") := rfl

/-- Claim C3 (amended): a contexts-marker line that is not valid JSON never
reaches `_parse_contexts`; it is handled as a text fragment — the decode
does not abort, the stored contexts are untouched, and the line's cleaned
text is appended to the answer.  Consequently a stream none of whose lines
is routed to `_parse_contexts` (in particular one whose only
contexts-marker lines are invalid JSON) decodes with an empty contexts
sequence. -/
theorem invalid_contexts_line_amended :
    (∀ (p : Bool) (st : ParseResult × String) (line : String),
       strContainsStr line "contexts" = true → json_loads line = none →
       line ≠ "" → line ≠ "__LLM_RESPONSE__" → line ≠ "__RELATED_QUESTIONS__" →
       parseStep p st line =
         .ok ({ st.1 with response := st.1.response ++ clean_response_text line },
              if p then st.2 ++ clean_response_text line else st.2)) ∧
    (∀ (lines : List String) (p : Bool) (res : ParseResult × String),
       (∀ l ∈ lines, isContextsLine l = false) →
       parse lines p = .ok res → res.1.contexts = []) := by
  constructor
  · intro p st line _ hj h1 h2 h3
    simp [parseStep, h1, h2, h3, hj]
  · intro lines p res hall h
    exact parseLines_contexts_of_none p lines _ res hall h

/-- Claim C3 witness: the one-line stream of the invalid contexts payload
decodes to an empty contexts sequence. -/
theorem invalid_contexts_line_amended_witness :
    ((⟨"\x7b\"contexts\": [\n", [], []⟩, "") : ParseResult × String).1.contexts = [] :=
  invalid_contexts_line_amended.2 ["\x7b\"contexts\": ["] false
    (⟨"\x7b\"contexts\": [\n", [], []⟩, "") (by decide) rfl

/-- Claim C7 (counterexample): the questions payload `[{"question": ""}]`
is a JSON array whose single element is an object with a `question` key,
and the decoder returns its value — the empty string.  The returned
element is therefore not a non-empty text string, refuting the final part
of the claim. -/
theorem question_value_empty_string_cex :
    parse_questions "[\x7b\"question\": \"\"\x7d]" = .ok [JValue.str ""] := rfl

theorem filterMap_question_eq (xs : List JValue) :
    xs.filterMap (fun q =>
        match q with
        | JValue.obj fs => jget fs "question"
        | _ => none) =
      (xs.filter hasQuestionKey).map questionValue := by
  induction xs with
  | nil => rfl
  | cons q qs ih =>
    cases q with
    | obj fs =>
      cases hq : jget fs "question" with
      | none =>
        simp [List.filterMap_cons, List.filter_cons, hasQuestionKey, hq, ih]
      | some v =>
        simp [List.filterMap_cons, List.filter_cons, hasQuestionKey,
              questionValue, jgetD, hq, ih]
    | null => simp [List.filterMap_cons, List.filter_cons, hasQuestionKey, ih]
    | bool b => simp [List.filterMap_cons, List.filter_cons, hasQuestionKey, ih]
    | num m e => simp [List.filterMap_cons, List.filter_cons, hasQuestionKey, ih]
    | str s => simp [List.filterMap_cons, List.filter_cons, hasQuestionKey, ih]
    | arr ys => simp [List.filterMap_cons, List.filter_cons, hasQuestionKey, ih]

/-- Claim C7 (amended): for a questions payload whose JSON value is an
array, the decoder returns exactly the `question` values of the elements
that are JSON objects containing a `question` key, in source order, and
skips all other elements; the returned values are whatever JSON values the
key holds (not necessarily non-empty strings). -/
theorem questions_extraction_amended (line : String) (xs : List JValue)
    (h : json_loads line = some (.arr xs)) :
    parse_questions line = .ok ((xs.filter hasQuestionKey).map questionValue) := by
  simp only [parse_questions, h, pyIter]
  rw [filterMap_question_eq]

/-- Claim C7 witness: of `[{"question": "a"}, 5]` only the object element
contributes, and its value `"a"` is returned. -/
theorem questions_extraction_amended_witness :
    parse_questions "[\x7b\"question\": \"a\"\x7d, 5]" = .ok [JValue.str "a"] :=
  questions_extraction_amended "[\x7b\"question\": \"a\"\x7d, 5]"
    [JValue.obj [("question", JValue.str "a")], JValue.num 5 0] rfl

/-- Claim C8: each contexts payload line replaces (rather than appends to)
the stored contexts sequence, and each questions payload line replaces the
stored questions sequence; hence when a stream contains several payload
lines of one kind and the decode completes, the final result carries
exactly the sequence built from the last such line. -/
theorem last_payload_wins :
    (∀ (pre post : List String) (c : String) (p : Bool)
       (res : ParseResult × String) (cs : List Context),
       (∀ l ∈ post, isContextsLine l = false) → isContextsLine c = true →
       parse_contexts c = .ok cs → parse (pre ++ c :: post) p = .ok res →
       res.1.contexts = cs) ∧
    (∀ (pre post : List String) (q : String) (p : Bool)
       (res : ParseResult × String) (qs : List JValue),
       (∀ l ∈ post, isQuestionsLine l = false) → isQuestionsLine q = true →
       parse_questions q = .ok qs → parse (pre ++ q :: post) p = .ok res →
       res.1.related_questions = qs) := by
  constructor
  · intro pre post c p res cs hpost hc hok h
    unfold parse at h
    rw [parseLines_append] at h
    cases hpre : parseLines p (⟨"", [], []⟩, "") pre with
    | error e =>
      rw [hpre] at h
      cases h
    | ok st1 =>
      rw [hpre] at h
      simp only [parseLines, parseStep_contexts_set p st1 c cs hc hok] at h
      exact parseLines_contexts_of_none p post _ res hpost h
  · intro pre post q p res qs hpost hq hok h
    unfold parse at h
    rw [parseLines_append] at h
    cases hpre : parseLines p (⟨"", [], []⟩, "") pre with
    | error e =>
      rw [hpre] at h
      cases h
    | ok st1 =>
      rw [hpre] at h
      simp only [parseLines, parseStep_questions_set p st1 q qs hq hok] at h
      exact parseLines_questions_of_none p post _ res hpost h

/-- Claim C8 witness: a stream of two contexts payload lines decodes to the
sequence built from the second. -/
theorem last_payload_wins_witness :
    ((⟨"", [⟨"b", "", "", none, none, true, JValue.str "", JValue.str ""⟩], []⟩,
      "") : ParseResult × String).1.contexts =
      [⟨"b", "", "", none, none, true, JValue.str "", JValue.str ""⟩] :=
  last_payload_wins.1 ["\x7b\"contexts\": [\x7b\"name\": \"a\"\x7d]\x7d"] []
    "\x7b\"contexts\": [\x7b\"name\": \"b\"\x7d]\x7d" false
    (⟨"", [⟨"b", "", "", none, none, true, JValue.str "", JValue.str ""⟩], []⟩, "")
    [⟨"b", "", "", none, none, true, JValue.str "", JValue.str ""⟩]
    (by simp) rfl rfl rfl

/-- Claim C9: a query that is not a text string, or whose text strips to
empty, is rejected with the validation error before any network
interaction: the outcome is the validation error for every possible network
behaviour, i.e. independent of it. -/
theorem invalid_query_rejected_before_network
    (f1 f2 : Except Unit (List String)) (q : PyQuery) (p1 p2 : Bool)
    (h : queryInvalid q = true) :
    search f1 q p1 = .error .validationError ∧
    search f1 q p1 = search f2 q p2 := by
  cases q with
  | nonStr => exact ⟨rfl, rfl⟩
  | str s =>
    have hs : (pyStrip s).isEmpty = true := h
    constructor
    · simp [search, hs]
    · simp [search, hs]

/-- Claim C9 witness: the whitespace-only query `"   "` is rejected whatever
the network would have answered. -/
theorem invalid_query_rejected_before_network_witness :
    search (.ok ["x"]) (.str "   ") true = .error .validationError ∧
    search (.ok ["x"]) (.str "   ") true = search (.error ()) (.str "   ") false :=
  invalid_query_rejected_before_network (.ok ["x"]) (.error ())
    (.str "   ") true false rfl

theorem parseStep_fst (p1 p2 : Bool) (r : ParseResult) (o1 o2 l : String) :
    (parseStep p1 (r, o1) l).map Prod.fst =
      (parseStep p2 (r, o2) l).map Prod.fst := by
  by_cases hs : (l = "" ∨ l = "__LLM_RESPONSE__" ∨ l = "__RELATED_QUESTIONS__")
  · rw [parseStep_of_sentinel p1 _ l hs, parseStep_of_sentinel p2 _ l hs]
    rfl
  · simp only [parseStep, if_neg hs]
    cases hj : json_loads l with
    | none => rfl
    | some v =>
      cases hc : strContainsStr l "contexts" with
      | true =>
        simp only [hc, if_true]
        cases parse_contexts l <;> rfl
      | false =>
        simp only [hc, Bool.false_eq_true, if_false]
        cases hq : strContainsStr l "\"question\"" with
        | true =>
          simp only [hq, if_true]
          cases parse_questions l <;> rfl
        | false =>
          simp only [hq, Bool.false_eq_true, if_false]
          rfl

theorem parseLines_fst (ls : List String) :
    ∀ (p1 p2 : Bool) (r : ParseResult) (o1 o2 : String),
    (parseLines p1 (r, o1) ls).map Prod.fst =
      (parseLines p2 (r, o2) ls).map Prod.fst := by
  induction ls with
  | nil =>
    intro p1 p2 r o1 o2
    rfl
  | cons l ls ih =>
    intro p1 p2 r o1 o2
    have h := parseStep_fst p1 p2 r o1 o2 l
    simp only [parseLines]
    cases h1 : parseStep p1 (r, o1) l with
    | ok a =>
      cases h2 : parseStep p2 (r, o2) l with
      | ok b =>
        rw [h1, h2] at h
        simp only [Except.map] at h
        obtain ⟨ra, oa⟩ := a
        obtain ⟨rb, ob⟩ := b
        have hab : ra = rb := by
          injection h
        subst hab
        exact ih p1 p2 ra oa ob
      | error e =>
        rw [h1, h2] at h
        simp only [Except.map] at h
        exact Except.noConfusion h
    | error e =>
      cases h2 : parseStep p2 (r, o2) l with
      | ok b =>
        rw [h1, h2] at h
        simp only [Except.map] at h
        exact Except.noConfusion h
      | error e2 =>
        rw [h1, h2] at h
        simp only [Except.map] at h
        exact h

/-- Claim C10: for every stream of lines the decoded result — answer text,
contexts and related questions — is the same whether the real-time printing
flag is true or false; the flag only changes the printed-output channel
(the second component), which the result projection discards. -/
theorem prints_flag_no_influence (lines : List String) :
    (parse lines true).map Prod.fst = (parse lines false).map Prod.fst :=
  parseLines_fst lines true false ⟨"", [], []⟩ "" ""

end Lepton
